import Mathlib

/-!
Verification of the numeric core of the dsvFPGA repository.

Part 1 models `pyFDA/filter_design/cheby2.py`: the Chebyshev-II filter
designer.  The external scipy routines (`scipy.signal.cheb2ord`,
`scipy.signal.cheby2`) and the external result sink (`pyfda_lib.save_fil`)
are modelled as an abstract environment `ScipyEnv`; the repository's own
code (parameter scaling, dispatch, write-back of computed corner
frequencies) is translated directly.

Part 2 models `pyfda/libs/pyfda_fft_windows_lib.py`: the FFT window
registry and synthesis engine.  Window arrays are lists of rationals
(exact arithmetic standing in for floats); failure of the underlying
generator (a raised exception or a `None` result) is modelled by an
`Option`-valued generator type; a Python `KeyError` escaping a function is
modelled by an `Option`/`Except` result of the translated function.
-/

/-- The record of filter-specification values read from / written to the
shared filter dictionary (`fil_dict` in the source).  Only the keys the
cheby2 designer accesses are modelled. -/
structure FilDict where
  N : ℕ
  F_PB : ℚ
  F_SB : ℚ
  F_PB2 : ℚ
  F_SB2 : ℚ
  A_PB : ℚ
  A_SB : ℚ
  A_PB2 : ℚ
  A_SB2 : ℚ
  deriving DecidableEq

/-- The instance attributes that `cheby2.get_params` sets (`self.N`,
`self.F_PB`, ..., `self.F_SBC`).  `F_SBC` is `None` until a minimum-order
design computed corner frequencies; a scalar for LP/HP, a pair for BP/BS. -/
structure DesignParams where
  N : ℕ
  F_PB : ℚ
  F_SB : ℚ
  F_PB2 : ℚ
  F_SB2 : ℚ
  F_SBC : Option (ℚ ⊕ ℚ × ℚ)
  A_PB : ℚ
  A_SB : ℚ
  A_PB2 : ℚ
  A_SB2 : ℚ

/-- Translation of `cheby2.get_params`: copy the dictionary values to the
instance attributes, multiplying every edge frequency by 2 (the scipy
convention treats 1.0 as Nyquist) and leaving the ripple/attenuation
values unscaled.  `F_SBC` is reset to `None`. -/
def get_params (fd : FilDict) : DesignParams :=
  { N := fd.N
    F_PB := fd.F_PB * 2
    F_SB := fd.F_SB * 2
    F_PB2 := fd.F_PB2 * 2
    F_SB2 := fd.F_SB2 * 2
    F_SBC := none
    A_PB := fd.A_PB
    A_SB := fd.A_SB
    A_PB2 := fd.A_PB2
    A_SB2 := fd.A_SB2 }

/-- The external scipy design routines, abstracted.  `C` is the opaque
coefficient representation (the source fixes `frmt = 'ba'` but never
inspects the value).  `cheb2ord` is the scalar-edge order estimator
(LP/HP), `cheb2ord2` the two-edge one (BP/BS); each returns the minimum
order together with the actual corner frequency/ies.  `cheby2` /
`cheby2_band` are the fixed-order coefficient-synthesis formulas, taking
order, stop-band attenuation, critical frequency/ies and the `btype`
string. -/
structure ScipyEnv (C : Type) where
  cheb2ord : ℚ → ℚ → ℚ → ℚ → ℕ × ℚ
  cheb2ord2 : ℚ → ℚ → ℚ → ℚ → ℚ → ℚ → ℕ × (ℚ × ℚ)
  cheby2 : ℕ → ℚ → ℚ → String → C
  cheby2_band : ℕ → ℚ → ℚ → ℚ → String → C

/-- Translation of `cheby2.save`: hand the coefficient object to the
external sink (modelled by returning it), and - when a minimum-order
design computed corner frequencies (`F_SBC` is not `None`) - write the
computed order back to the record and write each computed corner
frequency back divided by 2. -/
def save {C : Type} (fd : FilDict) (arg : C) (n : ℕ)
    (fsbc : Option (ℚ ⊕ ℚ × ℚ)) : FilDict × C :=
  match fsbc with
  | none => (fd, arg)
  | some (Sum.inl f) => ({ fd with N := n, F_SB := f / 2 }, arg)
  | some (Sum.inr (f1, f2)) =>
      ({ fd with N := n, F_SB := f1 / 2, F_SB2 := f2 / 2 }, arg)

/-- Translation of `cheby2.LPman` (fixed-order lowpass). -/
def LPman {C : Type} (env : ScipyEnv C) (fd : FilDict) : FilDict × C :=
  let p := get_params fd
  save fd (env.cheby2 p.N p.A_SB p.F_SB "low") p.N p.F_SBC

/-- Translation of `cheby2.LPmin` (minimum-order lowpass): estimate the
order and actual corner frequency with `cheb2ord`, then synthesize with
`cheby2` at the computed order and computed corner frequency. -/
def LPmin {C : Type} (env : ScipyEnv C) (fd : FilDict) : FilDict × C :=
  let p := get_params fd
  let r := env.cheb2ord p.F_PB p.F_SB p.A_PB p.A_SB
  save fd (env.cheby2 r.1 p.A_SB r.2 "lowpass") r.1 (some (Sum.inl r.2))

/-- Translation of `cheby2.HPman` (fixed-order highpass). -/
def HPman {C : Type} (env : ScipyEnv C) (fd : FilDict) : FilDict × C :=
  let p := get_params fd
  save fd (env.cheby2 p.N p.A_SB p.F_SB "highpass") p.N p.F_SBC

/-- Translation of `cheby2.HPmin` (minimum-order highpass). -/
def HPmin {C : Type} (env : ScipyEnv C) (fd : FilDict) : FilDict × C :=
  let p := get_params fd
  let r := env.cheb2ord p.F_PB p.F_SB p.A_PB p.A_SB
  save fd (env.cheby2 r.1 p.A_SB r.2 "highpass") r.1 (some (Sum.inl r.2))

/-- Translation of `cheby2.BPman` (fixed-order bandpass). -/
def BPman {C : Type} (env : ScipyEnv C) (fd : FilDict) : FilDict × C :=
  let p := get_params fd
  save fd (env.cheby2_band p.N p.A_SB p.F_SB p.F_SB2 "bandpass") p.N p.F_SBC

/-- Translation of `cheby2.BPmin` (minimum-order bandpass): the two-sided
order estimator returns the order and both actual corner frequencies. -/
def BPmin {C : Type} (env : ScipyEnv C) (fd : FilDict) : FilDict × C :=
  let p := get_params fd
  let r := env.cheb2ord2 p.F_PB p.F_PB2 p.F_SB p.F_SB2 p.A_PB p.A_SB
  save fd (env.cheby2_band r.1 p.A_SB r.2.1 r.2.2 "bandpass") r.1
    (some (Sum.inr r.2))

/-- Translation of `cheby2.BSman` (fixed-order bandstop). -/
def BSman {C : Type} (env : ScipyEnv C) (fd : FilDict) : FilDict × C :=
  let p := get_params fd
  save fd (env.cheby2_band p.N p.A_SB p.F_SB p.F_SB2 "bandstop") p.N p.F_SBC

/-- Translation of `cheby2.BSmin` (minimum-order bandstop). -/
def BSmin {C : Type} (env : ScipyEnv C) (fd : FilDict) : FilDict × C :=
  let p := get_params fd
  let r := env.cheb2ord2 p.F_PB p.F_PB2 p.F_SB p.F_SB2 p.A_PB p.A_SB
  save fd (env.cheby2_band r.1 p.A_SB r.2.1 r.2.2 "bandstop") r.1
    (some (Sum.inr r.2))

/-- Claim C2: for every valid minimum-order specification, the
minimum-order designs (LPmin/HPmin/BPmin/BSmin) first compute the minimum
order and the actual corner frequency/ies from the ripple/attenuation
constraints (via the order estimator applied to the doubled requested
edges), and then synthesize the coefficients by the fixed-order formula
evaluated at that computed order and those computed corner frequencies -
not at the originally requested stopband edges.  The computed order and
the halved computed corners are also written back to the record. -/
theorem min_order_uses_computed_edges {C : Type} (env : ScipyEnv C)
    (fd : FilDict) :
    (LPmin env fd =
      ({ fd with
          N := (env.cheb2ord (fd.F_PB * 2) (fd.F_SB * 2) fd.A_PB fd.A_SB).1,
          F_SB :=
            (env.cheb2ord (fd.F_PB * 2) (fd.F_SB * 2) fd.A_PB fd.A_SB).2 / 2 },
        env.cheby2
          (env.cheb2ord (fd.F_PB * 2) (fd.F_SB * 2) fd.A_PB fd.A_SB).1
          fd.A_SB
          (env.cheb2ord (fd.F_PB * 2) (fd.F_SB * 2) fd.A_PB fd.A_SB).2
          "lowpass")) ∧
    (HPmin env fd =
      ({ fd with
          N := (env.cheb2ord (fd.F_PB * 2) (fd.F_SB * 2) fd.A_PB fd.A_SB).1,
          F_SB :=
            (env.cheb2ord (fd.F_PB * 2) (fd.F_SB * 2) fd.A_PB fd.A_SB).2 / 2 },
        env.cheby2
          (env.cheb2ord (fd.F_PB * 2) (fd.F_SB * 2) fd.A_PB fd.A_SB).1
          fd.A_SB
          (env.cheb2ord (fd.F_PB * 2) (fd.F_SB * 2) fd.A_PB fd.A_SB).2
          "highpass")) ∧
    (BPmin env fd =
      ({ fd with
          N := (env.cheb2ord2 (fd.F_PB * 2) (fd.F_PB2 * 2) (fd.F_SB * 2)
                  (fd.F_SB2 * 2) fd.A_PB fd.A_SB).1,
          F_SB :=
            (env.cheb2ord2 (fd.F_PB * 2) (fd.F_PB2 * 2) (fd.F_SB * 2)
                (fd.F_SB2 * 2) fd.A_PB fd.A_SB).2.1 / 2,
          F_SB2 :=
            (env.cheb2ord2 (fd.F_PB * 2) (fd.F_PB2 * 2) (fd.F_SB * 2)
                (fd.F_SB2 * 2) fd.A_PB fd.A_SB).2.2 / 2 },
        env.cheby2_band
          (env.cheb2ord2 (fd.F_PB * 2) (fd.F_PB2 * 2) (fd.F_SB * 2)
              (fd.F_SB2 * 2) fd.A_PB fd.A_SB).1
          fd.A_SB
          (env.cheb2ord2 (fd.F_PB * 2) (fd.F_PB2 * 2) (fd.F_SB * 2)
              (fd.F_SB2 * 2) fd.A_PB fd.A_SB).2.1
          (env.cheb2ord2 (fd.F_PB * 2) (fd.F_PB2 * 2) (fd.F_SB * 2)
              (fd.F_SB2 * 2) fd.A_PB fd.A_SB).2.2
          "bandpass")) ∧
    (BSmin env fd =
      ({ fd with
          N := (env.cheb2ord2 (fd.F_PB * 2) (fd.F_PB2 * 2) (fd.F_SB * 2)
                  (fd.F_SB2 * 2) fd.A_PB fd.A_SB).1,
          F_SB :=
            (env.cheb2ord2 (fd.F_PB * 2) (fd.F_PB2 * 2) (fd.F_SB * 2)
                (fd.F_SB2 * 2) fd.A_PB fd.A_SB).2.1 / 2,
          F_SB2 :=
            (env.cheb2ord2 (fd.F_PB * 2) (fd.F_PB2 * 2) (fd.F_SB * 2)
                (fd.F_SB2 * 2) fd.A_PB fd.A_SB).2.2 / 2 },
        env.cheby2_band
          (env.cheb2ord2 (fd.F_PB * 2) (fd.F_PB2 * 2) (fd.F_SB * 2)
              (fd.F_SB2 * 2) fd.A_PB fd.A_SB).1
          fd.A_SB
          (env.cheb2ord2 (fd.F_PB * 2) (fd.F_PB2 * 2) (fd.F_SB * 2)
              (fd.F_SB2 * 2) fd.A_PB fd.A_SB).2.1
          (env.cheb2ord2 (fd.F_PB * 2) (fd.F_PB2 * 2) (fd.F_SB * 2)
              (fd.F_SB2 * 2) fd.A_PB fd.A_SB).2.2
          "bandstop")) := by
  refine ⟨rfl, rfl, rfl, rfl⟩

/-- Claim C3: every edge frequency taken from the record is multiplied by
exactly 2 on the way in (`get_params`), every computed corner frequency is
divided by exactly 2 on the way back (`save`), the synthesis routine of a
fixed-order design receives the doubled edge, and the round trip through
the two scalings is the identity on edges. -/
theorem frequency_scaling_round_trip {C : Type} (env : ScipyEnv C)
    (fd : FilDict) (c : C) (n : ℕ) (f u v : ℚ) :
    (get_params fd =
      { N := fd.N, F_PB := fd.F_PB * 2, F_SB := fd.F_SB * 2,
        F_PB2 := fd.F_PB2 * 2, F_SB2 := fd.F_SB2 * 2, F_SBC := none,
        A_PB := fd.A_PB, A_SB := fd.A_SB, A_PB2 := fd.A_PB2,
        A_SB2 := fd.A_SB2 }) ∧
    (save fd c n (some (Sum.inl f)) =
      ({ fd with N := n, F_SB := f / 2 }, c)) ∧
    (save fd c n (some (Sum.inr (u, v))) =
      ({ fd with N := n, F_SB := u / 2, F_SB2 := v / 2 }, c)) ∧
    (LPman env fd = (fd, env.cheby2 fd.N fd.A_SB (fd.F_SB * 2) "low")) ∧
    ((save fd c n (some (Sum.inl ((get_params fd).F_SB)))).1.F_SB
        = fd.F_SB) ∧
    ((save fd c n
        (some (Sum.inr ((get_params fd).F_SB, (get_params fd).F_SB2)))).1.F_SB
        = fd.F_SB) ∧
    ((save fd c n
        (some (Sum.inr ((get_params fd).F_SB, (get_params fd).F_SB2)))).1.F_SB2
        = fd.F_SB2) := by
  refine ⟨rfl, rfl, rfl, rfl, ?_, ?_, ?_⟩ <;>
    simp [save, get_params, mul_div_assoc]

/-- A concrete scipy environment used to exercise the designer on concrete
inputs: the order estimator returns order 4 and echoes the stop-band edge
as the corner frequency; the synthesis formulas record their numeric
arguments. -/
def env0 : ScipyEnv (List ℚ) :=
  { cheb2ord := fun _ fs _ _ => (4, fs)
    cheb2ord2 := fun _ _ fs fs2 _ _ => (4, (fs, fs2))
    cheby2 := fun n a f _ => [(n : ℚ), a, f]
    cheby2_band := fun n a f1 f2 _ => [(n : ℚ), a, f1, f2] }

/-- A minimum-order lowpass specification with invalid band ordering:
the passband edge (0.3) lies above the stopband edge (0.2). -/
def fd_invalid : FilDict :=
  { N := 0, F_PB := 3/10, F_SB := 2/10, F_PB2 := 0, F_SB2 := 0,
    A_PB := 1, A_SB := 40, A_PB2 := 0, A_SB2 := 0 }

/-- Counterexample to claim C5: on a lowpass minimum-order specification
with `passband_edge > stopband_edge` the design operation does not fail -
there is no validation and no `SpecificationError` anywhere in the
designer.  The invalid edges are passed (doubled) straight to the order
estimator, coefficient synthesis runs to completion, and the record is
updated with the computed order and corner frequency. -/
theorem lpmin_no_validation_cex :
    LPmin env0 fd_invalid =
      ({ N := 4, F_PB := 3/10, F_SB := 1/5, F_PB2 := 0, F_SB2 := 0,
         A_PB := 1, A_SB := 40, A_PB2 := 0, A_SB2 := 0 },
       [4, 40, 2/5]) := by
  norm_num [LPmin, get_params, save, env0, fd_invalid]

/-- Claim C5 as amended: the design operation performs no specification
validation.  Even when the band ordering is invalid (lowpass with
`passband_edge > stopband_edge`), the minimum-order design proceeds
normally: the doubled edges are passed unchecked to the order estimator
and the coefficients are synthesized; no typed error is raised before (or
instead of) the numeric work. -/
theorem lpmin_invalid_ordering_proceeds {C : Type} (env : ScipyEnv C)
    (fd : FilDict) (hbad : fd.F_SB < fd.F_PB) :
    LPmin env fd =
      ({ fd with
          N := (env.cheb2ord (fd.F_PB * 2) (fd.F_SB * 2) fd.A_PB fd.A_SB).1,
          F_SB :=
            (env.cheb2ord (fd.F_PB * 2) (fd.F_SB * 2) fd.A_PB fd.A_SB).2 / 2 },
        env.cheby2
          (env.cheb2ord (fd.F_PB * 2) (fd.F_SB * 2) fd.A_PB fd.A_SB).1
          fd.A_SB
          (env.cheb2ord (fd.F_PB * 2) (fd.F_SB * 2) fd.A_PB fd.A_SB).2
          "lowpass") :=
  rfl

/-- Witness for `lpmin_invalid_ordering_proceeds` at the concrete invalid
specification `fd_invalid` and the concrete environment `env0`. -/
theorem lpmin_invalid_ordering_proceeds_witness :
    fd_invalid.F_SB < fd_invalid.F_PB ∧
    LPmin env0 fd_invalid =
      ({ fd_invalid with
          N := (env0.cheb2ord (fd_invalid.F_PB * 2) (fd_invalid.F_SB * 2)
                  fd_invalid.A_PB fd_invalid.A_SB).1,
          F_SB :=
            (env0.cheb2ord (fd_invalid.F_PB * 2) (fd_invalid.F_SB * 2)
                fd_invalid.A_PB fd_invalid.A_SB).2 / 2 },
        env0.cheby2
          (env0.cheb2ord (fd_invalid.F_PB * 2) (fd_invalid.F_SB * 2)
              fd_invalid.A_PB fd_invalid.A_SB).1
          fd_invalid.A_SB
          (env0.cheb2ord (fd_invalid.F_PB * 2) (fd_invalid.F_SB * 2)
              fd_invalid.A_PB fd_invalid.A_SB).2
          "lowpass") :=
  ⟨by norm_num [fd_invalid],
   lpmin_invalid_ordering_proceeds env0 fd_invalid (by norm_num [fd_invalid])⟩

/-- A window generator as stored in the window dictionary: the underlying
function receives the number of points `N`, the list of shape-parameter
values the dispatcher passes (0, 1 or 2 values), and the symmetry flag.
`none` models the Python call raising an exception or returning `None`. -/
abbrev WinFn := ℕ → List ℚ → Bool → Option (List ℚ)

/-- One record of a window's `par` list: display name, current value and
the declared bounds (keys `name`, `val`, `min`, `max` in the source;
tooltips and TeX names are omitted). -/
structure ParRec where
  name : String
  val : ℚ
  min : ℚ
  max : ℚ

/-- A per-window sub-dictionary of `all_windows_dict`.  `win_fnct` and
`n_par` model keys that exist only after `set_window_name` ran (`none` =
key absent, read access raises `KeyError`); the inner `Option` of
`win_fnct` models a stored Python `None` (calling it raises inside the
`try` block and is caught).  `nenbw`/`cgain` are the statistics
`get_window` stores.  The `info`/`props` documentation keys are omitted. -/
structure WinEntry where
  fn_name : String
  par : List ParRec
  win_fnct : Option (Option WinFn)
  n_par : Option ℕ
  nenbw : Option ℚ
  cgain : Option ℚ

/-- The mutable window dictionary: the top-level `cur_win_name` and `win`
keys plus the per-window sub-dictionaries (an association list keyed by
window name, preserving insertion order like a Python dict). -/
structure WinDict where
  cur_win_name : String
  win : List ℚ
  entries : List (String × WinEntry)

/-- In-place update of one sub-dictionary (`win_dict[name].update(...)`). -/
def upd_entry (l : List (String × WinEntry)) (name : String)
    (e : WinEntry) : List (String × WinEntry) :=
  l.map (fun kv => if kv.1 = name then (name, e) else kv)

/-- Python's `fn_name.split('.')` on the character list of the name. -/
def split_dots : List Char → List (List Char)
  | [] => [[]]
  | c :: cs =>
      let r := split_dots cs
      if c = '.' then [] :: r
      else
        match r with
        | [] => [[c]]
        | h :: t => (c :: h) :: t

/-- The function-name resolution step of `set_window_name`: split the
qualified name on dots; a single component is looked up in
`scipy.signal.windows` (modelled by `env_sig`), a dotted name is resolved
by importing the module and taking the attribute (modelled by `env_mod`
applied to module name and attribute name).  `none` models `getattr`
returning `None`. -/
def resolve_fnct (env_sig : String → Option WinFn)
    (env_mod : String → String → Option WinFn) (fn_name : String) :
    Option WinFn :=
  let parts := split_dots fn_name.data
  let fnct := String.mk (parts.getLastD [])
  if parts.length = 1 then env_sig fnct
  else env_mod (String.mk (List.intercalate ['.'] parts.dropLast)) fnct

/-- Translation of `set_window_name`.  The membership test
`win_name not in win_dict` sees the whole top-level dictionary: besides
the per-window sub-dictionaries it contains the metadata keys
`'cur_win_name'` and `'win'` (both present in the session state modelled
here, created at initialisation).  An unknown name falls back to
`"Rectangular"` with a warning (the returned `Bool`).  Requesting one of
the metadata keys passes the membership test, but subscripting it yields
a non-dict value (the current-name string or the cached array) whose
`['fn_name']` access raises an uncaught `TypeError` (modelled by
`Except.error "TypeError"`).  Otherwise the window function is resolved
from the entry's `fn_name`; a failed resolution falls back to
`scipy.signal.windows.boxcar` (i.e. `env_sig "boxcar"`), the name
`"Rectangular"` and 0 parameters.  The dictionary is updated with the new
current name, an empty `win` array, and the resolved function / parameter
count stored in the final window's sub-dictionary.
`Except.error "KeyError"` models an uncaught Python `KeyError`
(subscripting a dictionary that lacks the final name). -/
def set_window_name (env_sig : String → Option WinFn)
    (env_mod : String → String → Option WinFn) (d : WinDict)
    (win_name : String) : Except String (Option WinFn × WinDict × Bool) :=
  let warned := !(win_name == "cur_win_name" || win_name == "win" ||
    (d.entries.lookup win_name).isSome)
  let name1 := if warned then "Rectangular" else win_name
  if name1 == "cur_win_name" || name1 == "win" then
    Except.error "TypeError"
  else
  match d.entries.lookup name1 with
  | none => Except.error "KeyError"
  | some e =>
    let r := resolve_fnct env_sig env_mod e.fn_name
    let fb := r.isNone
    let win_fnct := if fb then env_sig "boxcar" else r
    let name2 := if fb then "Rectangular" else name1
    let n_par := if fb then 0 else e.par.length
    match d.entries.lookup name2 with
    | none => Except.error "KeyError"
    | some e2 =>
      Except.ok (win_fnct,
        { cur_win_name := name2, win := [],
          entries := upd_entry d.entries name2
            { e2 with win_fnct := some win_fnct, n_par := some n_par } },
        warned)

/-- The generator invocation inside `get_window`'s `try` block: the
`dpss` special case reads `par[0]` and calls `scipy.signal.windows.dpss`
directly (modelled by `dpss_fn`); otherwise the stored function is called
with 0, 1 or 2 parameter values; more than 2 parameters is unsupported.
`none` models every failure the `try`/`except` catches: a raised
exception, a missing parameter entry, a stored `None` function object, an
unsupported parameter count, or the generator returning `None`. -/
def gen_invoke (dpss_fn : ℕ → ℚ → Bool → Option (List ℚ))
    (fn_name : String) (par : List ParRec) (fopt : Option WinFn)
    (np : ℕ) (N : ℕ) (sym : Bool) : Option (List ℚ) :=
  if fn_name = "dpss" then
    par.head?.bind (fun p => dpss_fn N p.val sym)
  else if np = 0 then
    fopt.bind (fun f => f N [] sym)
  else if np = 1 then
    fopt.bind (fun f => par.head?.bind (fun p => f N [p.val] sym))
  else if np = 2 then
    fopt.bind (fun f =>
      match par with
      | p0 :: p1 :: _ => f N [p0.val, p1.val] sym
      | _ => none)
  else none

/-- Translation of `get_window`.  Result: `none` models an uncaught
`KeyError` (entry, `win_fnct` or `n_par` key missing); otherwise the
returned array, the updated dictionary, whether the compute path ran
(false = the cached array was returned unchanged), and whether the
rectangular fallback was taken (and hence the failure logged).

The cache is hit when no explicit name is given (or it equals the current
one) and the cached array already has length `N` - note the `sym` flag is
not part of this check.  On the compute path a failed generator falls
back to the all-ones array; then `nenbw` (equivalent noise bandwidth) and
`cgain` (coherent gain) are computed on the raw array and stored in the
window's sub-dictionary, the array is divided by `cgain` and stored in
the top-level `win` key. -/
def get_window (dpss_fn : ℕ → ℚ → Bool → Option (List ℚ)) (d : WinDict)
    (N : ℕ) (win_name_arg : Option String) (sym : Bool) :
    Option (List ℚ × WinDict × Bool × Bool) :=
  let name := win_name_arg.getD d.cur_win_name
  if (win_name_arg = none ∨ name = d.cur_win_name) ∧ d.win.length = N then
    some (d.win, d, false, false)
  else
    match d.entries.lookup name with
    | none => none
    | some e =>
      match e.win_fnct, e.n_par with
      | some fopt, some np =>
        let w := (gen_invoke dpss_fn e.fn_name e.par fopt np N sym).getD
          (List.replicate N (1 : ℚ))
        let s := w.sum
        let nenbw := (N : ℚ) * (w.map (fun x => x * x)).sum / (s * s)
        let cgain := s / (N : ℚ)
        let w2 := w.map (fun x => x / cgain)
        some (w2,
          { d with
              win := w2,
              entries := upd_entry d.entries name
                { e with nenbw := some nenbw, cgain := some cgain } },
          true,
          (gen_invoke dpss_fn e.fn_name e.par fopt np N sym).isNone)
      | _, _ => none

/-- A fresh sub-dictionary for the static registry (no `win_fnct`,
`n_par`, `nenbw` or `cgain` keys yet). -/
def mk_entry (fn : String) (par : List ParRec) : WinEntry :=
  { fn_name := fn, par := par, win_fnct := none, n_par := none,
    nenbw := none, cgain := none }

/-- The static part of `all_windows_dict`: every window family defined in
the source, in source order, with its `fn_name` and its `par` records
(`name`, `val`, `min`, `max`).  The html `info` texts, TeX names and
tooltips are omitted; the commented-out Ultraspherical entry is absent as
in the source. -/
def all_windows_dict : List (String × WinEntry) :=
  [("Boxcar", mk_entry "boxcar" []),
   ("Rectangular", mk_entry "boxcar" []),
   ("Barthann", mk_entry "barthann" []),
   ("Bartlett", mk_entry "bartlett" []),
   ("Blackman", mk_entry "blackman" []),
   ("Blackmanharris", mk_entry "blackmanharris" []),
   ("Blackmanharris_5",
     mk_entry "pyfda.libs.pyfda_fft_windows_lib.blackmanharris5" []),
   ("Blackmanharris_7",
     mk_entry "pyfda.libs.pyfda_fft_windows_lib.blackmanharris7" []),
   ("Blackmanharris_9",
     mk_entry "pyfda.libs.pyfda_fft_windows_lib.blackmanharris9" []),
   ("Bohman", mk_entry "bohman" []),
   ("Cosine", mk_entry "cosine" []),
   ("Dolph-Chebyshev", mk_entry "chebwin"
     [{ name := "a", val := 80, min := 45, max := 300 }]),
   ("DPSS", mk_entry "dpss"
     [{ name := "NW", val := 3, min := 0, max := 100 }]),
   ("Flattop", mk_entry "flattop" []),
   ("General Gaussian", mk_entry "general_gaussian"
     [{ name := "p", val := 1.5, min := 0, max := 20 },
      { name := "&sigma;", val := 5, min := 0, max := 100 }]),
   ("Gauss", mk_entry "gaussian"
     [{ name := "&sigma;", val := 5, min := 0, max := 100 }]),
   ("Hamming", mk_entry "hamming" []),
   ("Hann", mk_entry "hann" []),
   ("Kaiser", mk_entry "kaiser"
     [{ name := "&beta;", val := 10, min := 0, max := 30 }]),
   ("Nuttall", mk_entry "nuttall" []),
   ("Parzen", mk_entry "parzen" []),
   ("Slepian", mk_entry "slepian"
     [{ name := "BW", val := 0.3, min := 0, max := 100 }]),
   ("Triangular", mk_entry "triang" []),
   ("Tukey", mk_entry "tukey"
     [{ name := "&alpha;", val := 0.25, min := 0, max := 1 }])]

/-- The window dictionary as initialised from the full registry, with the
source's initial current window `"Rectangular"` and an empty cache (the
`win` key is created empty by the first `set_window_name` call). -/
def initD : WinDict :=
  { cur_win_name := "Rectangular", win := [], entries := all_windows_dict }

/-- The clamping applied by `update_win_params` when storing an edited
parameter value: values below the declared `min` become `min`, values
above the declared `max` become `max`. -/
def clamp_par (p : ParRec) (t : ℚ) : ℚ :=
  if t < p.min then p.min else if t > p.max then p.max else t

/-- One parameter-store step of `update_win_params`: read parameter `idx`
of window `cur`, clamp the edited value, and store it back in the
dictionary.  `Except.error` models an uncaught `KeyError`/`IndexError`. -/
def clamp_step (d : WinDict) (cur : String) (idx : ℕ) (t : ℚ) :
    Except String WinDict :=
  match d.entries.lookup cur with
  | none => Except.error "KeyError"
  | some e =>
    match e.par.get? idx with
    | none => Except.error "IndexError"
    | some p =>
      let e2 := { e with par := e.par.set idx { p with val := clamp_par p t } }
      Except.ok { d with entries := upd_entry d.entries cur e2 }

/-- Translation of `QFFTWinSelector.update_win_params`: re-select the
current window via `set_window_name` (which clears the cached array),
then - if the window has parameters - clamp and store the edited values
(`t2` for the second parameter when `n_par > 1`, then `t1` for the first
when `n_par > 0`).  The `t` values model the results of `safe_eval` on
the line-edit texts; the GUI-widget updates and the emitted signal are
outside the model. -/
def update_win_params (env_sig : String → Option WinFn)
    (env_mod : String → String → Option WinFn) (d : WinDict)
    (t1 t2 : ℚ) : Except String WinDict :=
  let cur := d.cur_win_name
  match set_window_name env_sig env_mod d cur with
  | Except.error msg => Except.error msg
  | Except.ok (_, d1, _) =>
    match d1.entries.lookup cur with
    | none => Except.error "KeyError"
    | some e1 =>
      match e1.n_par with
      | none => Except.error "KeyError"
      | some np =>
        match (if 1 < np then clamp_step d1 cur 1 t2 else Except.ok d1) with
        | Except.error msg => Except.error msg
        | Except.ok d2 =>
          if 0 < np then clamp_step d2 cur 0 t1 else Except.ok d2

/-- Translation of `calc_cosine_window`: the cosine-sum window
`w[n] = a[0] + a[1]*cos(1*x[n]) + ... + a[k]*cos(k*x[n])` for
`x[n] = n*2*pi/L`, where `L = N-1` for a symmetric window and `L = N`
for a periodic one, accumulated exactly as the source's loop over
`range(1, len(a))` does.  The real cosine and pi of `numpy` are abstract
parameters so that the definition stays executable over any field. -/
def calc_cosine_window {α : Type} [Field α] (cos : α → α) (pi : α)
    (N : ℕ) (sym : Bool) (a : List α) : List α :=
  let L : α := if sym then (N : α) - 1 else (N : α)
  (List.range N).map (fun (n : ℕ) =>
    let x := (n : α) * 2 * pi / L
    (List.range' 1 (a.length - 1)).foldl
      (fun acc k => acc + a.getD k 0 * cos ((k : α) * x)) (a.headD 0))

/-- Translation of `blackmanharris5` (5-term cosine preset, literal
coefficients). -/
def blackmanharris5 {α : Type} [Field α] (cos : α → α) (pi : α)
    (N : ℕ) (sym : Bool) : List α :=
  calc_cosine_window cos pi N sym
    [3.232153788877343e-1,
     -4.714921439576260e-1,
     1.755341299601972e-1,
     -2.849699010614994e-2,
     1.261357088292677e-3]

/-- Translation of `blackmanharris7` (7-term cosine preset, literal
coefficients). -/
def blackmanharris7 {α : Type} [Field α] (cos : α → α) (pi : α)
    (N : ℕ) (sym : Bool) : List α :=
  calc_cosine_window cos pi N sym
    [2.712203605850388e-1,
     -4.334446123274422e-1,
     2.180041228929303e-1,
     -6.578534329560609e-2,
     1.076186730534183e-2,
     -7.700127105808265e-4,
     1.368088305992921e-5]

/-- Translation of `blackmanharris9` (9-term cosine preset, literal
coefficients). -/
def blackmanharris9 {α : Type} [Field α] (cos : α → α) (pi : α)
    (N : ℕ) (sym : Bool) : List α :=
  calc_cosine_window cos pi N sym
    [2.384331152777942e-1,
     -4.005545348643820e-1,
     2.358242530472107e-1,
     -9.527918858383112e-2,
     2.537395516617152e-2,
     -4.152432907505835e-3,
     3.685604163298180e-4,
     -1.384355593917030e-5,
     1.161808358932861e-7]

/-- Updating the sub-dictionary of a present key makes lookup return the
new sub-dictionary. -/
theorem lookup_upd_entry_self {l : List (String × WinEntry)} {name : String}
    {e0 e : WinEntry} (h : l.lookup name = some e0) :
    (upd_entry l name e).lookup name = some e := by
  induction l with
  | nil => simp [List.lookup] at h
  | cons kv t ih =>
      obtain ⟨k, v⟩ := kv
      by_cases hk : k = name
      · subst hk
        show ((if (k, v).1 = k then (k, e) else (k, v)) ::
          upd_entry t k e).lookup k = some e
        rw [if_pos rfl]
        simp [List.lookup]
      · have hk' : (name == k) = false := beq_eq_false_iff_ne.mpr (Ne.symm hk)
        simp only [List.lookup, hk'] at h
        show ((if (k, v).1 = name then (name, e) else (k, v)) ::
          upd_entry t name e).lookup name = some e
        rw [if_neg hk]
        simp only [List.lookup, hk']
        exact ih h

/-- Dividing every element of a list by a constant divides its sum. -/
theorem sum_map_div (w : List ℚ) (c : ℚ) :
    (w.map (fun x => x / c)).sum = w.sum / c := by
  induction w with
  | nil => simp
  | cons x t ih => simp [ih, div_add_div_same]

/-- Folding `acc + g k` over `range' 1 m` adds `∑ j in Icc 1 m, g j` to
the initial value. -/
theorem foldl_add_range_icc {α : Type} [AddCommMonoid α] (g : ℕ → α)
    (init : α) (m : ℕ) :
    (List.range' 1 m).foldl (fun acc k => acc + g k) init =
      init + ∑ j in Finset.Icc 1 m, g j := by
  induction m with
  | zero => simp
  | succ m ih =>
      rw [List.range'_concat, List.foldl_append, ih,
        Finset.sum_Icc_succ_top (Nat.le_add_left 1 m)]
      simp [add_assoc, Nat.add_comm]

/-- Claim C8: for every N, symmetry flag and coefficient list `a`,
`calc_cosine_window` returns the length-N sequence whose n-th element is
`a[0] + Σ_{j=1..k} a[j]*cos(j*x[n])` with `x[n] = n*(2*pi)/L`, where
`L = N-1` when symmetric and `L = N` otherwise; and the 5/7/9-term
Blackman-Harris presets apply it to their fixed literal coefficient
lists. -/
theorem calc_cosine_window_formula {α : Type} [Field α] (cos : α → α)
    (pi : α) (N : ℕ) (sym : Bool) (a : List α) (n : ℕ) (hn : n < N) :
    (calc_cosine_window cos pi N sym a).length = N ∧
    (calc_cosine_window cos pi N sym a).getD n 0 =
      a.headD 0 + ∑ j in Finset.Icc 1 (a.length - 1),
        a.getD j 0 * cos ((j : α) * ((n : α) * (2 * pi) /
          (if sym then (N : α) - 1 else (N : α)))) ∧
    blackmanharris5 cos pi N sym = calc_cosine_window cos pi N sym
      [3.232153788877343e-1, -4.714921439576260e-1, 1.755341299601972e-1,
       -2.849699010614994e-2, 1.261357088292677e-3] ∧
    blackmanharris7 cos pi N sym = calc_cosine_window cos pi N sym
      [2.712203605850388e-1, -4.334446123274422e-1, 2.180041228929303e-1,
       -6.578534329560609e-2, 1.076186730534183e-2, -7.700127105808265e-4,
       1.368088305992921e-5] ∧
    blackmanharris9 cos pi N sym = calc_cosine_window cos pi N sym
      [2.384331152777942e-1, -4.005545348643820e-1, 2.358242530472107e-1,
       -9.527918858383112e-2, 2.537395516617152e-2, -4.152432907505835e-3,
       3.685604163298180e-4, -1.384355593917030e-5, 1.161808358932861e-7] := by
  refine ⟨?_, ?_, rfl, rfl, rfl⟩
  · unfold calc_cosine_window
    rw [List.length_map, List.length_range]
  · unfold calc_cosine_window
    rw [List.getD_eq_getElem?_getD, List.getElem?_map, List.getElem?_range hn]
    simp only [Option.map_some', Option.getD_some]
    rw [foldl_add_range_icc]
    simp only [mul_assoc]

/-- A concrete stand-in cosine used to evaluate the cosine-sum model. -/
def c8c : ℚ → ℚ := fun x => x + 1

/-- A concrete stand-in for pi used to evaluate the cosine-sum model. -/
def p8 : ℚ := 3

/-- Witness for `calc_cosine_window_formula` at N = 2, periodic,
coefficients [5, 7], index 1. -/
theorem calc_cosine_window_formula_witness :
    (calc_cosine_window c8c p8 2 false [5, 7]).length = 2 ∧
    (calc_cosine_window c8c p8 2 false [5, 7]).getD 1 0 =
      ([5, 7] : List ℚ).headD 0 +
        ∑ j in Finset.Icc 1 (([5, 7] : List ℚ).length - 1),
          ([5, 7] : List ℚ).getD j 0 * c8c ((j : ℚ) * (((1 : ℕ) : ℚ) * (2 * p8) /
            (if false then ((2 : ℕ) : ℚ) - 1 else ((2 : ℕ) : ℚ)))) ∧
    blackmanharris5 c8c p8 2 false = calc_cosine_window c8c p8 2 false
      [3.232153788877343e-1, -4.714921439576260e-1, 1.755341299601972e-1,
       -2.849699010614994e-2, 1.261357088292677e-3] ∧
    blackmanharris7 c8c p8 2 false = calc_cosine_window c8c p8 2 false
      [2.712203605850388e-1, -4.334446123274422e-1, 2.180041228929303e-1,
       -6.578534329560609e-2, 1.076186730534183e-2, -7.700127105808265e-4,
       1.368088305992921e-5] ∧
    blackmanharris9 c8c p8 2 false = calc_cosine_window c8c p8 2 false
      [2.384331152777942e-1, -4.005545348643820e-1, 2.358242530472107e-1,
       -9.527918858383112e-2, 2.537395516617152e-2, -4.152432907505835e-3,
       3.685604163298180e-4, -1.384355593917030e-5, 1.161808358932861e-7] :=
  calc_cosine_window_formula c8c p8 2 false [5, 7] 1 (by norm_num)

/-- Claim C1: on the compute path (cache miss) `get_window` returns the
generator's raw array `w` (the all-ones fallback standing in when the
generator fails) divided elementwise by its coherent gain
`cgain = sum(w)/N`; `cgain` and the equivalent noise bandwidth
`nenbw = N*sum(w^2)/(sum(w))^2` are computed on the pre-normalization
array and stored in the window's sub-dictionary; consequently the
returned array's element sum divided by N equals 1. -/
theorem get_window_normalizes (dpss_fn : ℕ → ℚ → Bool → Option (List ℚ))
    (d : WinDict) (N : ℕ) (sym : Bool) (e : WinEntry) (fopt : Option WinFn)
    (np : ℕ) (w : List ℚ)
    (hlk : d.entries.lookup d.cur_win_name = some e)
    (hf : e.win_fnct = some fopt) (hn : e.n_par = some np)
    (hmiss : d.win.length ≠ N) (hN : 1 ≤ N)
    (hw : (gen_invoke dpss_fn e.fn_name e.par fopt np N sym).getD
      (List.replicate N 1) = w)
    (hs : w.sum ≠ 0) :
    ∃ d2 fb,
      get_window dpss_fn d N none sym =
        some (w.map (fun x => x / (w.sum / (N : ℚ))), d2, true, fb) ∧
      d2.entries.lookup d.cur_win_name =
        some { e with
          nenbw := some ((N : ℚ) * (w.map (fun x => x * x)).sum /
            (w.sum * w.sum)),
          cgain := some (w.sum / (N : ℚ)) } ∧
      (w.map (fun x => x / (w.sum / (N : ℚ)))).sum / (N : ℚ) = 1 := by
  have hN0 : (N : ℚ) ≠ 0 := Nat.cast_ne_zero.mpr (by omega)
  have hcond : ¬ (((none : Option String) = none ∨
      d.cur_win_name = d.cur_win_name) ∧ d.win.length = N) := by
    intro hc
    exact hmiss hc.2
  refine ⟨{ d with
      win := w.map (fun x => x / (w.sum / (N : ℚ))),
      entries := upd_entry d.entries d.cur_win_name
        { e with
          nenbw := some ((N : ℚ) * (w.map (fun x => x * x)).sum /
            (w.sum * w.sum)),
          cgain := some (w.sum / (N : ℚ)) } },
    (gen_invoke dpss_fn e.fn_name e.par fopt np N sym).isNone, ?_, ?_, ?_⟩
  · simp only [get_window, Option.getD_none, hlk, hf, hn, hw]
    rw [if_neg (fun hc => hmiss (And.right hc))]
  · exact lookup_upd_entry_self hlk
  · rw [sum_map_div]
    field_simp

/-- A stand-in for the external `scipy.signal.windows.dpss` that always
fails; the concrete tests below never take the dpss branch. -/
def dpss0 : ℕ → ℚ → Bool → Option (List ℚ) := fun _ _ _ => none

/-- A concrete parameterless generator producing the raw array [1, 3]. -/
def gC1 : WinFn := fun _ _ _ => some [1, 3]

/-- A concrete window entry holding `gC1` (state after `set_window_name`
ran for it). -/
def eC1 : WinEntry :=
  { fn_name := "testwin", par := [], win_fnct := some (some gC1),
    n_par := some 0, nenbw := none, cgain := none }

/-- A concrete window dictionary with current window `"T"` bound to
`eC1` and an empty cache. -/
def dC1 : WinDict :=
  { cur_win_name := "T", win := [], entries := [("T", eC1)] }

/-- Witness for `get_window_normalizes`: computing the raw array [1, 3]
(sum 4, N = 2, coherent gain 2) returns it normalized, stores the
statistics, and the normalized sum over N is 1. -/
theorem get_window_normalizes_witness :
    ∃ d2 fb,
      get_window dpss0 dC1 2 none false =
        some (([1, 3] : List ℚ).map
          (fun x => x / (([1, 3] : List ℚ).sum / ((2 : ℕ) : ℚ))), d2, true, fb) ∧
      d2.entries.lookup dC1.cur_win_name =
        some { eC1 with
          nenbw := some (((2 : ℕ) : ℚ) *
            (([1, 3] : List ℚ).map (fun x => x * x)).sum /
            (([1, 3] : List ℚ).sum * ([1, 3] : List ℚ).sum)),
          cgain := some (([1, 3] : List ℚ).sum / ((2 : ℕ) : ℚ)) } ∧
      (([1, 3] : List ℚ).map
        (fun x => x / (([1, 3] : List ℚ).sum / ((2 : ℕ) : ℚ)))).sum /
          ((2 : ℕ) : ℚ) = 1 :=
  get_window_normalizes dpss0 dC1 2 false eC1 (some gC1) 0 [1, 3]
    rfl rfl rfl (by decide) (by decide) rfl (by norm_num)

/-- The all-ones array of length n sums to n. -/
theorem sum_replicate_one (n : ℕ) : (List.replicate n (1 : ℚ)).sum = n := by
  induction n with
  | zero => simp
  | succ n ih =>
      rw [List.replicate_succ, List.sum_cons, ih]
      push_cast
      ring

/-- Claim C4: whenever the entry for the requested window is complete
(so no `KeyError` path is taken), `get_window` never propagates a
generator failure: it always returns a result, and when the generator
invocation fails (raise, `None` result, or unsupported parameter count)
the returned array is the all-ones array of length N and the fallback is
flagged (the failure is logged). -/
theorem get_window_fallback_ones (dpss_fn : ℕ → ℚ → Bool → Option (List ℚ))
    (d : WinDict) (N : ℕ) (name : String) (sym : Bool) (e : WinEntry)
    (fopt : Option WinFn) (np : ℕ)
    (hlk : d.entries.lookup name = some e)
    (hf : e.win_fnct = some fopt) (hn : e.n_par = some np)
    (hmiss : ¬ (name = d.cur_win_name ∧ d.win.length = N))
    (hN : 1 ≤ N) :
    (get_window dpss_fn d N (some name) sym).isSome = true ∧
    (gen_invoke dpss_fn e.fn_name e.par fopt np N sym = none →
      ∃ d2, get_window dpss_fn d N (some name) sym =
        some (List.replicate N 1, d2, true, true)) := by
  have hN0 : (N : ℚ) ≠ 0 := Nat.cast_ne_zero.mpr (by omega)
  constructor
  · simp only [get_window, Option.getD_some, hlk, hf, hn]
    rw [if_neg (fun hc => hmiss ⟨by simpa using hc.1, hc.2⟩)]
    rfl
  · intro hg
    refine ⟨{ d with
        win := List.replicate N 1,
        entries := upd_entry d.entries name
          { e with nenbw := some 1, cgain := some 1 } }, ?_⟩
    simp only [get_window, Option.getD_some, hlk, hf, hn, hg,
      Option.getD_none, Option.isNone_none, sum_replicate_one,
      List.map_replicate, mul_one, one_mul, div_self hN0,
      div_self (mul_ne_zero hN0 hN0), div_one, List.map_id']
    rw [if_neg (fun hc => hmiss ⟨by simpa using hc.1, hc.2⟩)]

/-- A concrete generator that always fails (models the underlying scipy
call raising an exception or returning `None`). -/
def gBad : WinFn := fun _ _ _ => none

/-- A concrete window entry holding the failing generator. -/
def eC4 : WinEntry :=
  { fn_name := "badwin", par := [], win_fnct := some (some gBad),
    n_par := some 0, nenbw := none, cgain := none }

/-- A concrete window dictionary with window `"B"` bound to `eC4`. -/
def dC4 : WinDict :=
  { cur_win_name := "B", win := [], entries := [("B", eC4)] }

/-- Witness for `get_window_fallback_ones`: the failing generator makes
`get_window` return the all-ones array of length 3 with the fallback
flagged. -/
theorem get_window_fallback_ones_witness :
    (get_window dpss0 dC4 3 (some "B") false).isSome = true ∧
    (gen_invoke dpss0 eC4.fn_name eC4.par (some gBad) 0 3 false = none →
      ∃ d2, get_window dpss0 dC4 3 (some "B") false =
        some (List.replicate 3 1, d2, true, true)) :=
  get_window_fallback_ones dpss0 dC4 3 "B" false eC4 (some gBad) 0
    rfl rfl rfl (by decide) (by decide)

/-- A concrete generator whose output depends on the `sym` flag (as every
real sym-sensitive window generator does): [1, 3] when symmetric,
[1, 1] when periodic; a test double in the sense of the spec. -/
def gS : WinFn := fun _ _ sym => if sym then some [1, 3] else some [1, 1]

/-- A concrete window entry holding `gS`. -/
def eS : WinEntry :=
  { fn_name := "symwin", par := [], win_fnct := some (some gS),
    n_par := some 0, nenbw := none, cgain := none }

/-- A concrete window dictionary with window `"S"` bound to `eS` and an
empty cache. -/
def dS0 : WinDict :=
  { cur_win_name := "S", win := [], entries := [("S", eS)] }

/-- The dictionary state after `get_window dpss0 dS0 2 none false`. -/
def dS1 : WinDict :=
  { cur_win_name := "S", win := [1, 1],
    entries := [("S", { eS with nenbw := some 1, cgain := some 1 })] }

/-- Counterexample to claim C9: the single-entry cache is keyed only on
the window name and N - the `sym` flag is not part of the check.  After
computing the periodic (sym = false) window for N = 2, a repeated call
for the same family and N but sym = true returns the cached periodic
array [1, 1], while recomputing from an empty cache with the same
arguments yields [1/2, 3/2].  The presence of the cache therefore changes
the returned value relative to always recomputing. -/
theorem cache_not_sym_transparent_cex :
    get_window dpss0 dS0 2 none false = some ([1, 1], dS1, true, false) ∧
    Option.map (fun t => t.1) (get_window dpss0 dS1 2 none true) =
      some [1, 1] ∧
    Option.map (fun t => t.1)
        (get_window dpss0 { dS1 with win := [] } 2 none true) =
      some [1/2, 3/2] ∧
    ([1, 1] : List ℚ) ≠ [1/2, 3/2] := by
  have hns : ("symwin" = "dpss") = False :=
    eq_false (by decide)
  refine ⟨?_, ?_, ?_, ?_⟩
  · norm_num [get_window, gen_invoke, upd_entry, List.lookup, dS0, dS1,
      eS, gS, hns]
  · norm_num [get_window, dS1]
  · norm_num [get_window, gen_invoke, upd_entry, List.lookup, dS1, eS, gS,
      hns]
  · norm_num

/-- Claim C9 as amended: the cache is output-transparent for a repeat
call with the same family, same N **and the same `sym` flag** (the cache
key omits `sym`, so only such repeats are transparent; parameter changes
are handled by explicit invalidation).  After a compute call, an
immediately repeated call with unchanged arguments returns the identical
(bit-identical) array without running the generator again. -/
theorem cache_transparent_same_sym
    (dpss_fn : ℕ → ℚ → Bool → Option (List ℚ)) (d : WinDict) (N : ℕ)
    (sym : Bool) (arr : List ℚ) (d1 : WinDict) (fb : Bool)
    (h1 : get_window dpss_fn { d with win := [] } N none sym =
      some (arr, d1, true, fb))
    (hlen : arr.length = N) :
    get_window dpss_fn d1 N none sym = some (arr, d1, false, false) := by
  unfold get_window at h1
  simp only [Option.getD_none] at h1
  split at h1
  · simp at h1
  · split at h1
    · simp at h1
    · split at h1
      · simp only [Option.some.injEq, Prod.mk.injEq] at h1
        obtain ⟨harr, hd1, -, hfb⟩ := h1
        subst hd1
        subst harr
        simp [get_window, hlen]
      · simp at h1

/-- A concrete generator returning the all-ones array (sym-insensitive). -/
def gT : WinFn := fun n _ _ => some (List.replicate n 1)

/-- A concrete window entry holding `gT`. -/
def eT : WinEntry :=
  { fn_name := "oneswin", par := [], win_fnct := some (some gT),
    n_par := some 0, nenbw := none, cgain := none }

/-- A concrete window dictionary with window `"W1"` bound to `eT`. -/
def dT : WinDict :=
  { cur_win_name := "W1", win := [], entries := [("W1", eT)] }

/-- The dictionary state after `get_window dpss0 dT 2 none false`. -/
def dT1 : WinDict :=
  { cur_win_name := "W1", win := [1, 1],
    entries := [("W1", { eT with nenbw := some 1, cgain := some 1 })] }

/-- Witness for `cache_transparent_same_sym`: repeating the call with the
same name, N and sym returns the cached array without recomputing. -/
theorem cache_transparent_same_sym_witness :
    get_window dpss0 dT1 2 none false = some ([1, 1], dT1, false, false) :=
  cache_transparent_same_sym dpss0 dT 2 false [1, 1] dT1 false
    (by
      have hns : ("oneswin" = "dpss") = False := eq_false (by decide)
      norm_num [get_window, gen_invoke, upd_entry, List.lookup, dT, dT1,
        eT, gT, hns, List.replicate])
    (by decide)

/-- Whether an `Except` result is a success. -/
def except_ok {α : Type} : Except String α → Bool
  | Except.ok _ => true
  | Except.error _ => false

/-- The `"Rectangular"` entry of the registry. -/
theorem initD_lookup_rect :
    initD.entries.lookup "Rectangular" = some (mk_entry "boxcar" []) := rfl

/-- Resolving the single-component name `"boxcar"` queries
`scipy.signal.windows`. -/
theorem resolve_fnct_boxcar (env_sig : String → Option WinFn)
    (env_mod : String → String → Option WinFn) :
    resolve_fnct env_sig env_mod "boxcar" = env_sig "boxcar" := rfl

/-- A concrete `scipy.signal.windows` lookup environment: only `boxcar`
exists. -/
def envW : String → Option WinFn :=
  fun s => if s = "boxcar" then some gT else none

/-- A concrete module-resolution environment: nothing resolves. -/
def envM : String → String → Option WinFn := fun _ _ => none

/-- Counterexample to claim C7: resolving a window name does not always
succeed.  The top-level metadata keys `'cur_win_name'` and `'win'` pass
the `win_name not in win_dict` membership test (they are keys of the
dictionary), so no fallback happens; subscripting them yields a non-dict
value whose `['fn_name']` access raises an uncaught `TypeError` instead
of falling back to the rectangular window. -/
theorem set_window_name_metadata_raises_cex :
    set_window_name envW envM initD "cur_win_name" =
      Except.error "TypeError" ∧
    set_window_name envW envM initD "win" = Except.error "TypeError" :=
  ⟨rfl, rfl⟩

/-- Claim C7 as amended: over the full registry dictionary,
`set_window_name` never raises for any requested name other than the two
top-level metadata keys `'cur_win_name'` and `'win'` (for which the
source raises an uncaught `TypeError`); when such a name is not a key of
the window dictionary it substitutes the default family `"Rectangular"`,
emits the diagnostic warning, and returns the resolution of the default
family's function (`scipy.signal.windows.boxcar`). -/
theorem set_window_name_fallback (env_sig : String → Option WinFn)
    (env_mod : String → String → Option WinFn) (name : String)
    (hn1 : name ≠ "cur_win_name") (hn2 : name ≠ "win") :
    except_ok (set_window_name env_sig env_mod initD name) = true ∧
    ((initD.entries.lookup name).isNone = true →
      (set_window_name env_sig env_mod initD name).toOption.map
          (fun t => (t.1, t.2.1.cur_win_name, t.2.2)) =
        some (env_sig "boxcar", "Rectangular", true)) := by
  have hr1 : (("Rectangular" : String) = "cur_win_name") = False :=
    eq_false (by decide)
  have hr2 : (("Rectangular" : String) = "win") = False :=
    eq_false (by decide)
  constructor
  · cases hn : initD.entries.lookup name with
    | none =>
        cases hr : env_sig "boxcar" <;>
          simp [set_window_name, except_ok, hn, hn1, hn2, hr1, hr2,
            initD_lookup_rect, resolve_fnct_boxcar, mk_entry, hr]
    | some e =>
        cases hr : resolve_fnct env_sig env_mod e.fn_name <;>
          simp [set_window_name, except_ok, hn, hn1, hn2, hr1, hr2,
            initD_lookup_rect, hr]
  · intro hmiss
    rw [Option.isNone_iff_eq_none] at hmiss
    cases hr : env_sig "boxcar" <;>
      simp [set_window_name, hmiss, hn1, hn2, hr1, hr2, initD_lookup_rect,
        resolve_fnct_boxcar, mk_entry, hr, Except.toOption]

/-- Witness for `set_window_name_fallback`: resolving the unknown name
`"Nonexistent"` succeeds, warns, and yields the default family. -/
theorem set_window_name_fallback_witness :
    except_ok (set_window_name envW envM initD "Nonexistent") = true ∧
    (initD.entries.lookup "Nonexistent").isNone = true ∧
    (set_window_name envW envM initD "Nonexistent").toOption.map
        (fun t => (t.1, t.2.1.cur_win_name, t.2.2)) =
      some (envW "boxcar", "Rectangular", true) :=
  ⟨(set_window_name_fallback envW envM "Nonexistent" (by decide)
      (by decide)).1,
   by decide,
   (set_window_name_fallback envW envM "Nonexistent" (by decide)
      (by decide)).2 (by decide)⟩

/-- Any successful `set_window_name` leaves an empty `win` array in the
returned dictionary. -/
theorem set_window_name_ok_win (env_sig : String → Option WinFn)
    (env_mod : String → String → Option WinFn) (d : WinDict)
    (name : String) (f : Option WinFn) (d1 : WinDict) (w : Bool)
    (h : set_window_name env_sig env_mod d name = Except.ok (f, d1, w)) :
    d1.win = [] := by
  simp only [set_window_name] at h
  repeat' split at h
  all_goals first
    | exact Except.noConfusion h
    | (simp only [Except.ok.injEq, Prod.mk.injEq] at h
       obtain ⟨-, hd, -⟩ := h
       subst hd
       rfl)

/-- A successful `clamp_step` does not touch the `win` array. -/
theorem clamp_step_win (d : WinDict) (cur : String) (idx : ℕ) (t : ℚ)
    (d' : WinDict) (h : clamp_step d cur idx t = Except.ok d') :
    d'.win = d.win := by
  unfold clamp_step at h
  split at h
  · exact absurd h (by simp)
  · split at h
    · exact absurd h (by simp)
    · simp only [Except.ok.injEq] at h
      subst h
      rfl

/-- Claim C10: every call to `set_window_name` - including one that
re-selects the family already current - sets the cached window array
`win_dict['win']` to the empty list before returning, and since
`update_win_params` calls `set_window_name` first (and its later steps
touch only parameter values), every parameter update also leaves the
cache invalidated.  (The `getD []` projection makes the statement about
the returned dictionary of a successful call; a raising call returns no
dictionary at all.) -/
theorem set_window_name_clears_cache (env_sig : String → Option WinFn)
    (env_mod : String → String → Option WinFn) (d : WinDict)
    (name : String) (t1 t2 : ℚ) :
    (((set_window_name env_sig env_mod d name).toOption.map
        (fun t => t.2.1.win)).getD []) = [] ∧
    (((update_win_params env_sig env_mod d t1 t2).toOption.map
        WinDict.win).getD []) = [] := by
  constructor
  · cases h : set_window_name env_sig env_mod d name with
    | error msg => simp [Except.toOption]
    | ok v =>
        obtain ⟨f, d1, w⟩ := v
        simp [Except.toOption,
          set_window_name_ok_win env_sig env_mod d name f d1 w h]
  · unfold update_win_params
    cases h : set_window_name env_sig env_mod d d.cur_win_name with
    | error msg => simp [Except.toOption, h]
    | ok v =>
        obtain ⟨f, d1, w⟩ := v
        have hd1 : d1.win = [] :=
          set_window_name_ok_win env_sig env_mod d d.cur_win_name f d1 w h
        cases hlu : d1.entries.lookup d.cur_win_name with
        | none => simp [Except.toOption, h, hlu]
        | some e1 =>
            cases hnp : e1.n_par with
            | none => simp [Except.toOption, h, hlu, hnp]
            | some np =>
                cases h2 : (if 1 < np then clamp_step d1 d.cur_win_name 1 t2
                    else Except.ok d1) with
                | error msg => simp [Except.toOption, h, hlu, hnp, h2]
                | ok d2 =>
                    have hd2 : d2.win = [] := by
                      by_cases hnp1 : 1 < np
                      · rw [if_pos hnp1] at h2
                        rw [clamp_step_win d1 d.cur_win_name 1 t2 d2 h2]
                        exact hd1
                      · rw [if_neg hnp1] at h2
                        simp only [Except.ok.injEq] at h2
                        subst h2
                        exact hd1
                    by_cases hnp0 : 0 < np
                    · cases h3 : clamp_step d2 d.cur_win_name 0 t1 with
                      | error msg =>
                          simp [Except.toOption, h, hlu, hnp, h2, h3, hnp0]
                      | ok d3 =>
                          have hd3 : d3.win = [] := by
                            rw [clamp_step_win d2 d.cur_win_name 0 t1 d3 h3]
                            exact hd2
                          simp [Except.toOption, h, hlu, hnp, h2, h3, hnp0,
                            hd3]
                    · simp [Except.toOption, h, hlu, hnp, h2, hnp0, hd2]

/-- A concrete one-parameter generator that records the parameter it
receives: it returns `[1, p]` for parameter value `p` (a test double
standing in for the external `scipy.signal.windows.kaiser`, which is
likewise sensitive to its shape parameter). -/
def gC6 : WinFn := fun _ ps _ => some (1 :: ps)

/-- A Kaiser-style entry (declared bounds [0, 30] as in the registry)
whose stored parameter value is `v`, with `gC6` as generator. -/
def eK (v : ℚ) : WinEntry :=
  { fn_name := "kaiser",
    par := [{ name := "&beta;", val := v, min := 0, max := 30 }],
    win_fnct := some (some gC6), n_par := some 1,
    nenbw := none, cgain := none }

/-- A window dictionary whose Kaiser-style entry stores parameter `v`. -/
def dK (v : ℚ) : WinDict :=
  { cur_win_name := "Kaiser", win := [], entries := [("Kaiser", eK v)] }

/-- Counterexample to claim C6: `get_window` does not clamp parameter
values - it passes the stored value to the generator unmodified.  With
the declared maximum 30, computing with stored value 1000 yields a
window different from computing with the clamped value 30, contradicting
the claim that the two computations give identical arrays. -/
theorem get_window_no_clamp_cex :
    Option.map (fun t => t.1)
        (get_window dpss0 (dK 1000) 2 (some "Kaiser") false) =
      some [2/1001, 2000/1001] ∧
    Option.map (fun t => t.1)
        (get_window dpss0 (dK 30) 2 (some "Kaiser") false) =
      some [2/31, 60/31] ∧
    ([2/1001, 2000/1001] : List ℚ) ≠ [2/31, 60/31] := by
  have hns : ("kaiser" = "dpss") = False := eq_false (by decide)
  refine ⟨?_, ?_, ?_⟩
  · norm_num [get_window, gen_invoke, upd_entry, List.lookup, dK, eK,
      gC6, hns]
  · norm_num [get_window, gen_invoke, upd_entry, List.lookup, dK, eK,
      gC6, hns]
  · norm_num

/-- The Kaiser-only window dictionary (as produced by selecting the
registry subset `['Kaiser']`), with the registry's declared parameter
record (default 10, bounds [0, 30]). -/
def dKaiser : WinDict :=
  { cur_win_name := "Kaiser", win := [],
    entries := [("Kaiser", mk_entry "kaiser"
      [{ name := "&beta;", val := 10, min := 0, max := 30 }])] }

/-- Claim C6 as amended: parameter clamping to the declared [min, max]
happens in the parameter-update operation `update_win_params` (before the
value is stored in the window state), not inside `get_window`; the value
stored for Kaiser's shape parameter is the edited value clamped to
[0, 30], so an out-of-range edit such as 1000 is stored as 30 and only
the clamped value ever reaches the generator through the update path. -/
theorem update_win_params_clamps (env_sig : String → Option WinFn)
    (env_mod : String → String → Option WinFn) (f : WinFn) (t1 t2 : ℚ)
    (hk : env_sig "kaiser" = some f) :
    (update_win_params env_sig env_mod dKaiser t1 t2).toOption.map
        (fun d2 => (d2.entries.lookup "Kaiser").map
          (fun e => e.par.map ParRec.val)) =
      some (some [if t1 < 0 then (0 : ℚ) else if t1 > 30 then 30 else t1]) ∧
    (0 : ℚ) ≤ (if t1 < 0 then (0 : ℚ) else if t1 > 30 then 30 else t1) ∧
    (if t1 < 0 then (0 : ℚ) else if t1 > 30 then 30 else t1) ≤ 30 := by
  have hres : resolve_fnct env_sig env_mod "kaiser" = env_sig "kaiser" := rfl
  have hk1 : (("Kaiser" : String) = "cur_win_name") = False :=
    eq_false (by decide)
  have hk2 : (("Kaiser" : String) = "win") = False := eq_false (by decide)
  refine ⟨?_, ?_⟩
  · simp [update_win_params, set_window_name, clamp_step, clamp_par,
      dKaiser, mk_entry, upd_entry, List.lookup, hres, hk, hk1, hk2,
      Except.toOption]
  · constructor
    · split_ifs with h1 h2
      · exact le_refl 0
      · norm_num
      · exact not_lt.mp h1
    · split_ifs with h1 h2
      · norm_num
      · exact le_refl 30
      · exact not_lt.mp h2

/-- A concrete `scipy.signal.windows` environment where only `kaiser`
resolves (to the recording generator `gC6`). -/
def envK : String → Option WinFn :=
  fun s => if s = "kaiser" then some gC6 else none

/-- Witness for `update_win_params_clamps`: editing Kaiser's shape
parameter to 1000 stores the clamped value. -/
theorem update_win_params_clamps_witness :
    (update_win_params envK envM dKaiser 1000 0).toOption.map
        (fun d2 => (d2.entries.lookup "Kaiser").map
          (fun e => e.par.map ParRec.val)) =
      some (some [if (1000 : ℚ) < 0 then (0 : ℚ)
        else if (1000 : ℚ) > 30 then 30 else 1000]) ∧
    (0 : ℚ) ≤ (if (1000 : ℚ) < 0 then (0 : ℚ)
      else if (1000 : ℚ) > 30 then 30 else 1000) ∧
    (if (1000 : ℚ) < 0 then (0 : ℚ)
      else if (1000 : ℚ) > 30 then 30 else 1000) ≤ 30 :=
  update_win_params_clamps envK envM gC6 1000 0 rfl
